import Mathlib

/-!
Verification development for the AssetLink custody / marketplace service.

The definitions below are a shallow embedding of the JavaScript sources:

* `src/modules/marketplace/marketplace.controller.js` (trade service part:
  `placeBid` / `acceptBid` / `rejectBid`, Prisma `$transaction` settlement),
* `src/modules/operation/operation.service.js` (`initiateOperation`,
  `approveOperation`, `executeOperation`, `monitorExecution`),
* `src/modules/audit/audit.repository.js` (`findByOperation`),
* the custody service (`updateCustodyStatus`, `getCustodyRecordById`).

Decimal string amounts (`parseFloat` arithmetic in the source) are modelled
exactly as integers in minor units — the representation the spec's design
notes prescribe; database rows are lists of records, and Prisma's
interactive `$transaction` is modelled as an `Except`-valued draft update
that commits only on success (rollback on error).  Fallible stores are
modelled with explicit success flags where a claim depends on them.
-/

namespace AssetLink

/-! ## Marketplace data model (trade.service.js) -/

inductive ListingStatus where
  | ACTIVE | SOLD | CANCELLED | EXPIRED
deriving DecidableEq, Repr

inductive BidStatus where
  | PENDING | ACCEPTED | REJECTED
deriving DecidableEq, Repr

structure Listing where
  id : String
  assetId : String
  custodyRecordId : String
  sellerId : String
  price : ℤ
  currency : String
  status : ListingStatus
deriving DecidableEq, Repr

structure Bid where
  id : String
  listingId : String
  buyerId : String
  amount : ℤ
  status : BidStatus
deriving DecidableEq, Repr

structure Ownership where
  assetId : String
  custodyRecordId : String
  ownerId : String
  quantity : ℤ
deriving DecidableEq, Repr

structure UserBalance where
  userId : String
  balance : ℤ
  currency : String
deriving DecidableEq, Repr

structure AuditEntry where
  eventType : String
  actor : String
  custodyRecordId : Option String
  operationId : Option String
  metadata : String
  timestamp : Nat
deriving DecidableEq, Repr

structure MarketState where
  listings : List Listing
  bids : List Bid
  ownerships : List Ownership
  balances : List UserBalance
  audit : List AuditEntry
deriving DecidableEq, Repr

/-- Errors surfaced by the marketplace service.  `txError` stands for a
Prisma error raised inside the `$transaction` callback (e.g. P2025 record
not found, unique-constraint violation); `auditError` for a failure of the
audit store after the transaction. -/
inductive MErr where
  | notFound | forbidden | badRequest | txError | auditError
deriving DecidableEq, Repr

/-- Key of an ownership row: Prisma unique key `assetId_ownerId`. -/
def ownKey (assetId ownerId : String) (o : Ownership) : Bool :=
  o.assetId == assetId && o.ownerId == ownerId

/-- `tx.ownership.delete` on the unique key: fails (P2025) when the row is
absent, otherwise removes it. -/
def ownershipDelete (l : List Ownership) (assetId ownerId : String) :
    Except MErr (List Ownership) :=
  match l.find? (ownKey assetId ownerId) with
  | none => .error .txError
  | some _ => .ok (l.filter (fun o => !(ownKey assetId ownerId o)))

/-- `tx.ownership.create`: fails on a unique-key collision, otherwise
appends the row. -/
def ownershipCreate (l : List Ownership) (row : Ownership) :
    Except MErr (List Ownership) :=
  match l.find? (ownKey row.assetId row.ownerId) with
  | some _ => .error .txError
  | none => .ok (l ++ [row])

/-- `tx.userBalance.update` on the unique key `userId`: fails when the row
is absent, otherwise overwrites the balance. -/
def balanceUpdate (l : List UserBalance) (uid : String) (v : ℤ) :
    Except MErr (List UserBalance) :=
  match l.find? (fun r => r.userId == uid) with
  | none => .error .txError
  | some _ => .ok (l.map (fun r => if r.userId == uid then { r with balance := v } else r))

/-- `tx.userBalance.create`: fails on a unique-key collision, otherwise
appends the row. -/
def balanceCreate (l : List UserBalance) (row : UserBalance) :
    Except MErr (List UserBalance) :=
  match l.find? (fun r => r.userId == row.userId) with
  | some _ => .error .txError
  | none => .ok (l ++ [row])

/-- `tx.listing.update`: set the status of the listing with the given id. -/
def listingUpdate (l : List Listing) (id : String) (st : ListingStatus) :
    Except MErr (List Listing) :=
  match l.find? (fun x => x.id == id) with
  | none => .error .txError
  | some _ => .ok (l.map (fun x => if x.id == id then { x with status := st } else x))

/-- `tx.bid.update`: set the status of the bid with the given id. -/
def bidUpdate (l : List Bid) (id : String) (st : BidStatus) :
    Except MErr (List Bid) :=
  match l.find? (fun x => x.id == id) with
  | none => .error .txError
  | some _ => .ok (l.map (fun x => if x.id == id then { x with status := st } else x))

/-- Append an audit entry (`auditService.logEvent` with a healthy store);
the timestamp is the append position, so appended entries carry
non-decreasing timestamps. -/
def appendAudit (s : MarketState) (eventType actor : String)
    (custodyRecordId : Option String) (metadata : String) : MarketState :=
  { s with audit := s.audit ++
      [{ eventType, actor, custodyRecordId, operationId := none, metadata,
         timestamp := s.audit.length }] }

/-- The body of the Prisma `$transaction` callback in `acceptBid`
(trade.service.js): the five settlement writes, in source order.
`buyerBal` is the buyer balance read before the transaction. -/
def acceptBidTx (s : MarketState) (bid : Bid) (listing : Listing)
    (buyerBal : ℤ) (sellerId : String) : Except MErr MarketState :=
  -- 1. transfer ownership: delete the seller's row, create the buyer's
  -- (the source hard-codes quantity '1', "assuming single token")
  match ownershipDelete s.ownerships listing.assetId sellerId with
  | .error e => .error e
  | .ok own1 =>
    match ownershipCreate own1
        ⟨listing.assetId, listing.custodyRecordId, bid.buyerId, 1⟩ with
    | .error e => .error e
    | .ok own2 =>
      -- 2. debit the buyer by the bid amount (balance read pre-transaction)
      match balanceUpdate s.balances bid.buyerId (buyerBal - bid.amount) with
      | .error e => .error e
      | .ok bal1 =>
        -- 3. credit the seller (update the row if present, else create it)
        match (match bal1.find? (fun r => r.userId == sellerId) with
               | some sb => balanceUpdate bal1 sellerId (sb.balance + bid.amount)
               | none => balanceCreate bal1
                   ⟨sellerId, bid.amount, listing.currency⟩) with
        | .error e => .error e
        | .ok bal2 =>
          -- 4. listing -> SOLD
          match listingUpdate s.listings listing.id .SOLD with
          | .error e => .error e
          | .ok ls =>
            -- 5. bid -> ACCEPTED
            match bidUpdate s.bids bid.id .ACCEPTED with
            | .error e => .error e
            | .ok bs =>
              .ok { s with ownerships := own2, balances := bal2,
                           listings := ls, bids := bs }

/-- The read-only precondition phase of `acceptBid` (trade.service.js, in
source order): bid lookup with its listing, listing-ownership check, bid
status check, listing status check, buyer balance re-check.  No state is
written; on success the found bid, listing and buyer balance row are
handed to the transaction. -/
def acceptBidChecks (s : MarketState) (bidId sellerId : String) :
    Except MErr (Bid × Listing × UserBalance) :=
  match s.bids.find? (fun b => b.id == bidId) with
  | none => .error .notFound
  | some bid =>
    match s.listings.find? (fun l => l.id == bid.listingId) with
    | none => .error .notFound
    | some listing =>
      if listing.sellerId ≠ sellerId then .error .forbidden
      else if bid.status ≠ .PENDING then .error .badRequest
      else if listing.status ≠ .ACTIVE then .error .badRequest
      else
        match s.balances.find? (fun r => r.userId == bid.buyerId) with
        | none => .error .badRequest
        | some bb =>
          if bb.balance < bid.amount then .error .badRequest
          else .ok (bid, listing, bb)

/-- `acceptBid` from trade.service.js.  Returns the post-call state and the
error, if any.  A failure inside the `$transaction` rolls every write back
(the state component is the original state); `auditOk` says whether the
audit store is healthy for the two `logEvent` calls that follow the
transaction (the service rethrows an audit failure). -/
def acceptBid (auditOk : Bool) (s : MarketState) (bidId sellerId : String) :
    MarketState × Option MErr :=
  match acceptBidChecks s bidId sellerId with
  | .error e => (s, some e)
  | .ok (bid, listing, bb) =>
    match acceptBidTx s bid listing bb.balance sellerId with
    | .error e => (s, some e)
    | .ok s1 =>
      if auditOk then
        let s2 := appendAudit s1 "BID_ACCEPTED" sellerId
          (some listing.custodyRecordId) bid.id
        let s3 := appendAudit s2 "OWNERSHIP_TRANSFERRED" "SYSTEM"
          (some listing.custodyRecordId) listing.assetId
        (s3, none)
      else (s1, some .auditError)

/-- `rejectBid` from trade.service.js: checks listing ownership and bid
status only, then sets the bid to REJECTED and appends a BID_REJECTED
audit entry. -/
def rejectBid (s : MarketState) (bidId sellerId : String) :
    MarketState × Option MErr :=
  match s.bids.find? (fun b => b.id == bidId) with
  | none => (s, some .notFound)
  | some bid =>
    match s.listings.find? (fun l => l.id == bid.listingId) with
    | none => (s, some .notFound)
    | some listing =>
      if listing.sellerId ≠ sellerId then (s, some .forbidden)
      else if bid.status ≠ .PENDING then (s, some .badRequest)
      else
        match bidUpdate s.bids bidId .REJECTED with
        | .error e => (s, some e)
        | .ok bs =>
          let s1 := { s with bids := bs }
          (appendAudit s1 "BID_REJECTED" sellerId
            (some listing.custodyRecordId) bid.id, none)

/-- Total balance held across all users. -/
def totalBalance (l : List UserBalance) : ℤ :=
  (l.map (fun r => r.balance)).sum

/-- Total ownership quantity of one asset summed across all owners. -/
def assetTotal (l : List Ownership) (assetId : String) : ℤ :=
  ((l.filter (fun o => o.assetId == assetId)).map (fun o => o.quantity)).sum

/-! ## Operation lifecycle model (operation.service.js, custody.service.js) -/

inductive OperationType where
  | MINT | TRANSFER | BURN | LINK_ASSET
deriving DecidableEq, Repr

inductive OperationStatus where
  | PENDING_CHECKER | APPROVED | EXECUTED | REJECTED | FAILED
deriving DecidableEq, Repr

inductive CustodyStatus where
  | UNLINKED | LINKED | MINTED | WITHDRAWN | BURNED
deriving DecidableEq, Repr

/-- Modelled from the spec: `src/enums/operationStatus.js` is not under
`src/`; its `canTransitionTo` follows the spec's state machine
(PENDING_CHECKER → APPROVED/REJECTED, APPROVED → EXECUTED/FAILED,
terminal states immutable). -/
def OperationStatus.canTransitionTo : OperationStatus → OperationStatus → Bool
  | .PENDING_CHECKER, .APPROVED => true
  | .PENDING_CHECKER, .REJECTED => true
  | .APPROVED, .EXECUTED => true
  | .APPROVED, .FAILED => true
  | _, _ => false

/-- Modelled from the spec: `src/enums/custodyStatus.js` is not under
`src/`; its `canTransitionTo` follows the spec's forward lattice
UNLINKED → LINKED → MINTED → WITHDRAWN/BURNED. -/
def CustodyStatus.canTransitionTo : CustodyStatus → CustodyStatus → Bool
  | .UNLINKED, .LINKED => true
  | .LINKED, .MINTED => true
  | .MINTED, .WITHDRAWN => true
  | .MINTED, .BURNED => true
  | _, _ => false

structure Operation where
  id : String
  operationType : OperationType
  custodyRecordId : String
  payload : String
  status : OperationStatus
  initiatedBy : String
  approvedBy : Option String
  rejectedBy : Option String
  rejectionReason : Option String
  fireblocksTaskId : Option String
  txHash : Option String
  failureReason : Option String
deriving DecidableEq, Repr

structure CustodyRecord where
  id : String
  assetId : String
  status : CustodyStatus
  blockchain : Option String
  tokenId : Option String
  txHash : Option String
deriving DecidableEq, Repr

structure OpState where
  operations : List Operation
  custody : List CustodyRecord
  assetMeta : List (String × String)
  audit : List AuditEntry
deriving DecidableEq, Repr

/-- Errors raised by the operation service.  The source raises its
`ApiError` hierarchy (`errors/ApiError.js`, not under `src/`, modelled
from the spec's error taxonomy): `forbidden` is the spec's
`SegregationViolation`, `badRequest` covers `PreconditionError` /
`InvalidTransition` / `ConcurrentOperationError`, `provider` a
synchronous provider failure. -/
inductive OErr where
  | notFound | forbidden | badRequest | provider (msg : String)
deriving DecidableEq, Repr

/-- Optional fields passed alongside a status update
(`operationRepository.updateStatus(id, status, metadata)`). -/
structure OpPatch where
  approvedBy : Option String
  rejectedBy : Option String
  rejectionReason : Option String
  fireblocksTaskId : Option String
  txHash : Option String
  failureReason : Option String
deriving DecidableEq, Repr

def OpPatch.empty : OpPatch := ⟨none, none, none, none, none, none⟩

def applyPatch (o : Operation) (st : OperationStatus) (p : OpPatch) : Operation :=
  { o with
    status := st,
    approvedBy := p.approvedBy.orElse (fun _ => o.approvedBy),
    rejectedBy := p.rejectedBy.orElse (fun _ => o.rejectedBy),
    rejectionReason := p.rejectionReason.orElse (fun _ => o.rejectionReason),
    fireblocksTaskId := p.fireblocksTaskId.orElse (fun _ => o.fireblocksTaskId),
    txHash := p.txHash.orElse (fun _ => o.txHash),
    failureReason := p.failureReason.orElse (fun _ => o.failureReason) }

/-- `operationRepository.findById`. -/
def findOp (s : OpState) (opId : String) : Option Operation :=
  s.operations.find? (fun o => o.id == opId)

/-- Modelled from the spec: `operation.repository.js` is not under `src/`.
The spec treats the persisted store as a plain durable store; like its
sibling `custody.repository.updateStatus` (which is in `src/`),
`updateStatus` is an unconditional field update on the row with the given
id, failing only when the row is absent.  Returns the stores and the
updated row. -/
def opUpdateStatus (l : List Operation) (opId : String) (st : OperationStatus)
    (p : OpPatch) : Except OErr (List Operation × Operation) :=
  match l.find? (fun o => o.id == opId) with
  | none => .error .notFound
  | some o =>
    let o' := applyPatch o st p
    .ok (l.map (fun x => if x.id == opId then o' else x), o')

/-- Modelled from the spec: `operation.repository.js` is not under `src/`;
`findPendingByCustodyRecord` returns the non-terminal (PENDING_CHECKER or
APPROVED) Operations referencing the record. -/
def findPendingByCustodyRecord (s : OpState) (crId : String) : List Operation :=
  s.operations.filter (fun o =>
    o.custodyRecordId == crId &&
      (o.status == .PENDING_CHECKER || o.status == .APPROVED))

/-- Append an audit entry to the operation-side state
(`auditService.logEvent`; the audit store is taken as healthy here). -/
def appendOpAudit (s : OpState) (eventType actor : String)
    (custodyRecordId operationId : Option String) (metadata : String) : OpState :=
  { s with audit := s.audit ++
      [{ eventType, actor, custodyRecordId, operationId, metadata,
         timestamp := s.audit.length }] }

/-- Metadata handed to a custody status update. -/
structure CMeta where
  blockchain : Option String
  tokenId : Option String
  txHash : Option String
deriving DecidableEq, Repr

def CMeta.empty : CMeta := ⟨none, none, none⟩

/-- `custodyService.updateCustodyStatus`: find the record, validate the
transition against the custody lattice, update the row, and append the
matching audit event (TOKEN_MINTED / TOKEN_TRANSFERRED / TOKEN_BURNED). -/
def updateCustodyStatus (s : OpState) (id : String) (newStatus : CustodyStatus)
    (meta : CMeta) (actor : String) : Except OErr OpState :=
  match s.custody.find? (fun c => c.id == id) with
  | none => .error .notFound
  | some c =>
    if !c.status.canTransitionTo newStatus then .error .badRequest
    else
      let c' := { c with
        status := newStatus,
        blockchain := meta.blockchain.orElse (fun _ => c.blockchain),
        tokenId := meta.tokenId.orElse (fun _ => c.tokenId),
        txHash := meta.txHash.orElse (fun _ => c.txHash) }
      let s1 := { s with custody := s.custody.map (fun x => if x.id == id then c' else x) }
      match newStatus with
      | .MINTED => .ok (appendOpAudit s1 "TOKEN_MINTED" actor (some id) none "")
      | .WITHDRAWN => .ok (appendOpAudit s1 "TOKEN_TRANSFERRED" actor (some id) none "")
      | .BURNED => .ok (appendOpAudit s1 "TOKEN_BURNED" actor (some id) none "")
      | _ => .ok s1

/-- `initiateOperation` (operation.service.js, maker path): looks the
custody record up (`getCustodyRecordById` throws NotFound when absent),
rejects when a pending operation exists, then creates the operation in
PENDING_CHECKER and appends OPERATION_CREATED.  `newOpId` models the
database-generated UUID.  Note: the source performs no custody-status
compatibility check before creating the operation. -/
def initiateOperation (s : OpState) (custodyRecordId : String)
    (ty : OperationType) (payload actor newOpId : String) :
    OpState × Except OErr Operation :=
  match s.custody.find? (fun c => c.id == custodyRecordId) with
  | none => (s, .error .notFound)
  | some _ =>
    if (findPendingByCustodyRecord s custodyRecordId).length > 0 then
      (s, .error .badRequest)
    else
      let op : Operation :=
        { id := newOpId, operationType := ty, custodyRecordId, payload,
          status := .PENDING_CHECKER, initiatedBy := actor,
          approvedBy := none, rejectedBy := none, rejectionReason := none,
          fireblocksTaskId := none, txHash := none, failureReason := none }
      let s1 := { s with operations := s.operations ++ [op] }
      let s2 := appendOpAudit s1 "OPERATION_CREATED" actor
        (some custodyRecordId) (some newOpId) ""
      (s2, .ok op)

/-- The `catch` block of `executeOperation`: append OPERATION_FAILED, move
the operation to FAILED with the failure reason, and rethrow. -/
def execCatch (s : OpState) (opId msg : String) : OpState × Except OErr Operation :=
  let s1 := appendOpAudit s "OPERATION_FAILED" "system" none (some opId) msg
  match opUpdateStatus s1.operations opId .FAILED
      { OpPatch.empty with failureReason := some msg } with
  | .error e => (s1, .error e)
  | .ok (ops, _) => ({ s1 with operations := ops }, .error (.provider msg))

/-- `executeOperation` (operation.service.js): performs the synchronous
provider call for MINT/TRANSFER (its outcome is the `submit` parameter; a
BURN operation matches no branch and keeps a null task id), then marks the
operation EXECUTED at once, starts the fire-and-forget monitor (modelled
separately as `monitorExecution`), and appends OPERATION_EXECUTED.  The
LINK_ASSET branch updates custody to LINKED, records asset metadata and
returns EXECUTED immediately.  Any failure lands in `execCatch`. -/
def executeOperation (submit : Except String String) (s : OpState)
    (opId : String) : OpState × Except OErr Operation :=
  match findOp s opId with
  | none => (s, .error .notFound)
  | some op =>
    match op.operationType with
    | .LINK_ASSET =>
      match updateCustodyStatus s op.custodyRecordId .LINKED CMeta.empty
          "SYSTEM_GOVERNANCE" with
      | .error _ => execCatch s opId "custody update failed"
      | .ok s1 =>
        let s2 := { s1 with assetMeta := s1.assetMeta ++ [(op.custodyRecordId, op.payload)] }
        match opUpdateStatus s2.operations opId .EXECUTED OpPatch.empty with
        | .error _ => execCatch s2 opId "operation update failed"
        | .ok (ops, o') => ({ s2 with operations := ops }, .ok o')
    | _ =>
      match (match op.operationType with
             | .MINT => submit.map some
             | .TRANSFER => submit.map some
             | _ => .ok none : Except String (Option String)) with
      | .error msg => execCatch s opId msg
      | .ok taskId =>
        match opUpdateStatus s.operations opId .EXECUTED
            { OpPatch.empty with fireblocksTaskId := taskId } with
        | .error _ => execCatch s opId "operation update failed"
        | .ok (ops, o') =>
          let s1 := { s with operations := ops }
          -- `monitorExecution(...)` is started here fire-and-forget; its
          -- effects happen asynchronously and are modelled by applying
          -- `monitorExecution` to a later state.
          let s2 := appendOpAudit s1 "OPERATION_EXECUTED" "system" none
            (some opId) "PENDING_ON_CHAIN"
          (s2, .ok o')

/-- `approveOperation` (operation.service.js, checker path): NotFound,
maker-checker segregation, transition check, update to APPROVED with the
approver recorded, OPERATION_APPROVED audit entry, then the auto-execute
call into `executeOperation`. -/
def approveOperation (submit : Except String String) (s : OpState)
    (opId actor : String) : OpState × Except OErr Operation :=
  match findOp s opId with
  | none => (s, .error .notFound)
  | some op =>
    if op.initiatedBy == actor then (s, .error .forbidden)
    else if !op.status.canTransitionTo .APPROVED then (s, .error .badRequest)
    else
      match opUpdateStatus s.operations opId .APPROVED
          { OpPatch.empty with approvedBy := some actor } with
      | .error e => (s, .error e)
      | .ok (ops, _) =>
        let s1 := { s with operations := ops }
        let s2 := appendOpAudit s1 "OPERATION_APPROVED" actor
          (some op.custodyRecordId) (some opId) ""
        executeOperation submit s2 opId

/-- A single provider poll response (`fireblocksService.monitorStatus`). -/
structure PollData where
  status : String
  txHash : Option String
  contractAddress : Option String
deriving DecidableEq, Repr

/-- Polling budget of the execution monitor. -/
def maxAttempts : Nat := 30

/-- Fixed polling interval of the execution monitor, in milliseconds. -/
def pollDelayMs : Nat := 10000

/-- Outcome of one run of the `poll` closure: either monitoring ends
(`stop`), or another run is scheduled (`again`). -/
inductive PollOutcome where
  | stop (s : OpState)
  | again (s : OpState)
deriving DecidableEq, Repr

/-- The milestone progress entries of the `poll` closure: granular audit
logging at attempts 2, 5 and 10 ("for the live terminal"). -/
def milestoneAudit (opId taskId : String) (attempts : Nat) (s : OpState) :
    OpState :=
  let s := if attempts == 2 then
    appendOpAudit s "ON_CHAIN_SUBMISSION" "system" none (some opId) taskId else s
  let s := if attempts == 5 then
    appendOpAudit s "BLOCK_PROPAGATION" "system" none (some opId) taskId else s
  if attempts == 10 then
    appendOpAudit s "FINALIZING_SETTLEMENT" "system" none (some opId) taskId else s

/-- One run of the `poll` closure of `monitorExecution`.  `responses n` is
the provider's answer to the poll made with `attempts = n` (`.error`
models a thrown network/store error, which the catch block only logs,
ending the loop — the source does not reschedule from its catch). -/
def pollOnce (responses : Nat → Except String PollData) (ty : OperationType)
    (opId taskId : String) (attempts : Nat) (s : OpState) : PollOutcome :=
  match responses attempts with
  | .error _ => .stop s
  | .ok r =>
    let s := milestoneAudit opId taskId attempts s
    if r.status == "COMPLETED" then
      match findOp s opId with
      | none => .stop s
      | some op =>
        match (match ty with
               | .MINT => updateCustodyStatus s op.custodyRecordId .MINTED
                   { blockchain := some "ETH_TEST5",
                     tokenId := some (r.contractAddress.getD "ISSUED"),
                     txHash := r.txHash } "SYSTEM"
               | .BURN => updateCustodyStatus s op.custodyRecordId .BURNED
                   { CMeta.empty with txHash := r.txHash } "SYSTEM"
               | _ => .ok s) with
        | .error _ => .stop s
        | .ok s1 =>
          match opUpdateStatus s1.operations opId .EXECUTED
              { OpPatch.empty with txHash := r.txHash } with
          | .error _ => .stop s1
          | .ok (ops, _) => .stop { s1 with operations := ops }
    else if r.status == "FAILED" || r.status == "REJECTED" ||
        r.status == "CANCELLED" then
      let s1 := appendOpAudit s "OPERATION_FAILED" "system" none (some opId)
        ("Fireblocks status: " ++ r.status)
      match opUpdateStatus s1.operations opId .FAILED
          { OpPatch.empty with
            failureReason := some ("Fireblocks status: " ++ r.status) } with
      | .error _ => .stop s1
      | .ok (ops, _) => .stop { s1 with operations := ops }
    else if attempts < maxAttempts then .again s
    else .stop s

/-- The recursive scheduling of `poll` (`setTimeout(poll, delay)`): run one
poll; stop or continue with the next attempt.  `fuel` bounds the
recursion; `monitorExecution` supplies more fuel than the attempt budget
can consume. -/
def monitorPoll (responses : Nat → Except String PollData) (ty : OperationType)
    (opId taskId : String) : Nat → Nat → OpState → OpState
  | _, 0, s => s
  | attempts, fuel + 1, s =>
    match pollOnce responses ty opId taskId attempts s with
    | .stop s' => s'
    | .again s' => monitorPoll responses ty opId taskId (attempts + 1) fuel s'

/-- `monitorExecution` (operation.service.js): the bounded polling loop,
started with `attempts = 0`.  On budget exhaustion the source only logs
`Monitoring timeout`; it does not touch the operation or the audit log. -/
def monitorExecution (responses : Nat → Except String PollData)
    (ty : OperationType) (opId taskId : String) (s : OpState) : OpState :=
  monitorPoll responses ty opId taskId 0 (maxAttempts + 2) s

/-! ## Audit repository (audit.repository.js) -/

/-- Stable insertion of an entry into a timestamp-descending list, keeping
earlier entries first among equal timestamps. -/
def insertDesc (e : AuditEntry) : List AuditEntry → List AuditEntry
  | [] => [e]
  | x :: xs => if e.timestamp ≤ x.timestamp then x :: insertDesc e xs
               else e :: x :: xs

/-- Stable sort by descending timestamp (Prisma `orderBy: timestamp desc`). -/
def sortDesc : List AuditEntry → List AuditEntry
  | [] => []
  | x :: xs => insertDesc x (sortDesc xs)

/-- `findByOperation` (audit.repository.js): filter the log by operation
id, order by `timestamp: desc`, then apply `skip`/`take` (the source
defaults are `limit = 100`, `offset = 0`). -/
def findByOperation (logs : List AuditEntry) (operationId : String)
    (limit offset : Nat) : List AuditEntry :=
  (((sortDesc (logs.filter (fun e => e.operationId == some operationId))).drop
    offset).take limit)

/-- Non-decreasing (chronological) timestamp order. -/
def chronological (l : List AuditEntry) : Prop :=
  l.Chain' (fun a b => a.timestamp ≤ b.timestamp)

instance (l : List AuditEntry) : Decidable (chronological l) :=
  inferInstanceAs
    (Decidable (l.Chain' (fun a b : AuditEntry => a.timestamp ≤ b.timestamp)))

/-! ## Shared lemmas about the row stores -/

/-- Updating the rows a predicate selects, when the first hit is `o`,
leaves a list whose first hit is the updated `o` — provided the update
preserves the predicate on hits and is the identity off them. -/
theorem find?_map_update {α : Type} (p : α → Bool) (upd : α → α)
    (hkeep : ∀ x, p x = true → p (upd x) = true)
    (hid : ∀ x, p x = false → upd x = x) :
    ∀ (l : List α) (o : α), l.find? p = some o →
      (l.map upd).find? p = some (upd o) := by
  intro l
  induction l with
  | nil => intro o h; simp at h
  | cons x xs ih =>
    intro o h
    cases hx : p x with
    | true =>
      simp only [List.find?, hx, Option.some.injEq] at h
      subst h
      simp only [List.map_cons, List.find?, hkeep x hx]
    | false =>
      simp only [List.find?, hx] at h
      simp only [List.map_cons, List.find?, hid x hx, hx]
      exact ih o h

theorem balanceUpdate_ok {l : List UserBalance} {uid : String} {v : ℤ}
    {l' : List UserBalance} (h : balanceUpdate l uid v = .ok l') :
    ∃ r0, l.find? (fun r => r.userId == uid) = some r0 ∧
      l' = l.map (fun r => if r.userId == uid then { r with balance := v } else r) := by
  unfold balanceUpdate at h
  split at h
  · exact absurd h (by simp)
  · exact ⟨_, by assumption, by injection h with h; exact h.symm⟩

theorem balanceCreate_ok {l : List UserBalance} {row : UserBalance}
    {l' : List UserBalance} (h : balanceCreate l row = .ok l') :
    l.find? (fun r => r.userId == row.userId) = none ∧ l' = l ++ [row] := by
  unfold balanceCreate at h
  split at h
  · exact absurd h (by simp)
  · exact ⟨by assumption, by injection h with h; exact h.symm⟩

theorem ownershipDelete_ok {l : List Ownership} {assetId ownerId : String}
    {l' : List Ownership} (h : ownershipDelete l assetId ownerId = .ok l') :
    ∃ o, l.find? (ownKey assetId ownerId) = some o ∧
      l' = l.filter (fun x => !(ownKey assetId ownerId x)) := by
  unfold ownershipDelete at h
  split at h
  · exact absurd h (by simp)
  · exact ⟨_, by assumption, by injection h with h; exact h.symm⟩

theorem ownershipCreate_ok {l : List Ownership} {row : Ownership}
    {l' : List Ownership} (h : ownershipCreate l row = .ok l') :
    l.find? (ownKey row.assetId row.ownerId) = none ∧ l' = l ++ [row] := by
  unfold ownershipCreate at h
  split at h
  · exact absurd h (by simp)
  · exact ⟨by assumption, by injection h with h; exact h.symm⟩

theorem listingUpdate_ok {l : List Listing} {id : String} {st : ListingStatus}
    {l' : List Listing} (h : listingUpdate l id st = .ok l') :
    ∃ x, l.find? (fun y => y.id == id) = some x ∧
      l' = l.map (fun y => if y.id == id then { y with status := st } else y) := by
  unfold listingUpdate at h
  split at h
  · exact absurd h (by simp)
  · exact ⟨_, by assumption, by injection h with h; exact h.symm⟩

theorem bidUpdate_ok {l : List Bid} {id : String} {st : BidStatus}
    {l' : List Bid} (h : bidUpdate l id st = .ok l') :
    ∃ x, l.find? (fun y => y.id == id) = some x ∧
      l' = l.map (fun y => if y.id == id then { y with status := st } else y) := by
  unfold bidUpdate at h
  split at h
  · exact absurd h (by simp)
  · exact ⟨_, by assumption, by injection h with h; exact h.symm⟩

/-- Decomposition of a committed settlement transaction into its five
writes. -/
theorem acceptBidTx_ok {s : MarketState} {bid : Bid} {listing : Listing}
    {buyerBal : ℤ} {sellerId : String} {s1 : MarketState}
    (h : acceptBidTx s bid listing buyerBal sellerId = .ok s1) :
    ∃ own1 own2 bal1 bal2 ls bs,
      ownershipDelete s.ownerships listing.assetId sellerId = .ok own1 ∧
      ownershipCreate own1
        ⟨listing.assetId, listing.custodyRecordId, bid.buyerId, 1⟩ = .ok own2 ∧
      balanceUpdate s.balances bid.buyerId (buyerBal - bid.amount) = .ok bal1 ∧
      (match bal1.find? (fun r => r.userId == sellerId) with
       | some sb => balanceUpdate bal1 sellerId (sb.balance + bid.amount)
       | none => balanceCreate bal1
           ⟨sellerId, bid.amount, listing.currency⟩) = .ok bal2 ∧
      listingUpdate s.listings listing.id .SOLD = .ok ls ∧
      bidUpdate s.bids bid.id .ACCEPTED = .ok bs ∧
      s1 = { s with ownerships := own2, balances := bal2,
                    listings := ls, bids := bs } := by
  unfold acceptBidTx at h
  split at h
  · exact absurd h (by simp)
  split at h
  · exact absurd h (by simp)
  split at h
  · exact absurd h (by simp)
  split at h
  · exact absurd h (by simp)
  split at h
  · exact absurd h (by simp)
  split at h
  · exact absurd h (by simp)
  injection h with h
  exact ⟨_, _, _, _, _, _, by assumption, by assumption, by assumption,
    by assumption, by assumption, by assumption, h.symm⟩

/-! ## Conservation lemmas for the balance and ownership stores -/

theorem totalBalance_cons (x : UserBalance) (l : List UserBalance) :
    totalBalance (x :: l) = x.balance + totalBalance l := by
  simp [totalBalance]

theorem totalBalance_append (l : List UserBalance) (row : UserBalance) :
    totalBalance (l ++ [row]) = totalBalance l + row.balance := by
  simp [totalBalance]

theorem assetTotal_cons (x : Ownership) (l : List Ownership) (aid : String) :
    assetTotal (x :: l) aid
      = (if x.assetId == aid then x.quantity else 0) + assetTotal l aid := by
  simp only [assetTotal, List.filter_cons]
  split <;> simp

theorem assetTotal_append (l : List Ownership) (row : Ownership) (aid : String) :
    assetTotal (l ++ [row]) aid
      = assetTotal l aid + (if row.assetId == aid then row.quantity else 0) := by
  simp only [assetTotal, List.filter_append, List.map_append, List.sum_append]
  congr 1
  simp only [List.filter_cons, List.filter_nil]
  split <;> simp

theorem map_update_id {α : Type} (p : α → Bool) (upd : α → α)
    (hid : ∀ x, p x = false → upd x = x) :
    ∀ l : List α, (∀ y ∈ l, p y = false) → l.map upd = l := by
  intro l
  induction l with
  | nil => intro _; rfl
  | cons x xs ih =>
    intro h
    rw [List.map_cons, hid x (h x (by simp)), ih (fun y hy => h y (by simp [hy]))]

theorem balanceUpdate_map_userId (l : List UserBalance) (uid : String) (v : ℤ) :
    (l.map (fun r => if r.userId == uid then { r with balance := v } else r)).map
      (fun r => r.userId) = l.map (fun r => r.userId) := by
  induction l with
  | nil => rfl
  | cons x xs ih =>
    simp only [List.map_cons, ih, List.cons.injEq, and_true]
    split <;> rfl

/-- Overwriting the balance of the (unique) row of one user changes the
total balance by the difference. -/
theorem totalBalance_map_update {l : List UserBalance} {uid : String}
    {v : ℤ} {r0 : UserBalance}
    (hnd : (l.map (fun r => r.userId)).Nodup)
    (h : l.find? (fun r => r.userId == uid) = some r0) :
    totalBalance (l.map (fun r => if r.userId == uid then { r with balance := v } else r))
      = totalBalance l - r0.balance + v := by
  induction l with
  | nil => simp at h
  | cons x xs ih =>
    rw [List.map_cons, List.nodup_cons] at hnd
    cases hx : (x.userId == uid) with
    | true =>
      simp only [List.find?, hx, Option.some.injEq] at h
      subst h
      have hxuid : x.userId = uid := by simpa using hx
      have hnone : ∀ y ∈ xs, ((fun r : UserBalance => r.userId == uid) y) = false := by
        intro y hy
        cases hyp : (y.userId == uid) with
        | false => simpa using hyp
        | true =>
          exfalso
          apply hnd.1
          have hyu : y.userId = uid := by simpa using hyp
          exact List.mem_map.mpr ⟨y, hy, by rw [hyu, hxuid]⟩
      have hmap : xs.map (fun r => if r.userId == uid then { r with balance := v } else r) = xs :=
        map_update_id _ _ (fun z hz => by simp at hz; simp [hz]) xs hnone
      simp only [List.map_cons, hx, if_true, hmap, totalBalance_cons]
      ring
    | false =>
      simp only [List.find?, hx] at h
      simp only [List.map_cons, hx, Bool.false_eq_true, if_false, totalBalance_cons,
        ih hnd.2 h]
      ring

/-- Deleting the (unique) ownership row of one `(asset, owner)` key removes
exactly its quantity from the asset's total. -/
theorem assetTotal_filter_delete {l : List Ownership} {aid oid : String}
    {o : Ownership}
    (hnd : (l.map (fun x => (x.assetId, x.ownerId))).Nodup)
    (h : l.find? (ownKey aid oid) = some o) :
    assetTotal (l.filter (fun x => !(ownKey aid oid x))) aid
      = assetTotal l aid - o.quantity := by
  induction l with
  | nil => simp at h
  | cons x xs ih =>
    rw [List.map_cons, List.nodup_cons] at hnd
    cases hx : ownKey aid oid x with
    | true =>
      simp only [List.find?, hx, Option.some.injEq] at h
      subst h
      have hkey : x.assetId = aid ∧ x.ownerId = oid := by
        have hx' := hx
        unfold ownKey at hx'
        simpa [Bool.and_eq_true] using hx'
      have hnone : ∀ y ∈ xs, ownKey aid oid y = false := by
        intro y hy
        cases hyp : ownKey aid oid y with
        | false => rfl
        | true =>
          exfalso
          apply hnd.1
          have hky : y.assetId = aid ∧ y.ownerId = oid := by
            have hyp' := hyp
            unfold ownKey at hyp'
            simpa [Bool.and_eq_true] using hyp'
          refine List.mem_map.mpr ⟨y, hy, ?_⟩
          rw [hky.1, hky.2, hkey.1, hkey.2]
      rw [List.filter_cons, if_neg (by simp [hx]),
        List.filter_eq_self.mpr (fun y hy => by simp [hnone y hy]),
        assetTotal_cons, if_pos (by simp [hkey.1])]
      ring
    | false =>
      simp only [List.find?, hx] at h
      rw [List.filter_cons, if_pos (by simp [hx]), assetTotal_cons,
        assetTotal_cons, ih hnd.2 h]
      ring

/-! ## Claim C3: maker-checker segregation -/

/-- C3: an approval attempt by the operation's own maker
(`checker == initiatedBy`) fails with the segregation error
(`ForbiddenError`, the spec's `SegregationViolation`) and leaves the whole
state — the operation's status and every other field — unchanged. -/
theorem approveOperation_segregation (submit : Except String String)
    (s : OpState) (opId actor : String) (op : Operation)
    (hfind : findOp s opId = some op) (hmaker : op.initiatedBy = actor) :
    approveOperation submit s opId actor = (s, .error .forbidden) := by
  unfold approveOperation
  rw [hfind]
  simp [hmaker]

def c3Op : Operation :=
  ⟨"op1", .MINT, "cr1", "p", .PENDING_CHECKER, "mallory",
   none, none, none, none, none, none⟩

def c3State : OpState :=
  ⟨[c3Op], [⟨"cr1", "A1", .LINKED, none, none, none⟩], [], []⟩

/-- Witness for C3 at a concrete state: the maker `mallory` cannot approve
their own PENDING_CHECKER operation. -/
theorem approveOperation_segregation_witness :
    findOp c3State "op1" = some c3Op ∧ c3Op.initiatedBy = "mallory" ∧
    approveOperation (.ok "task-1") c3State "op1" "mallory" =
      (c3State, .error .forbidden) :=
  ⟨by decide, by decide,
   approveOperation_segregation (.ok "task-1") c3State "op1" "mallory" c3Op
     (by decide) (by decide)⟩

/-! ## Claim C4: status after a successful synchronous submission -/

def c4Op : Operation :=
  ⟨"op1", .MINT, "cr1", "p", .PENDING_CHECKER, "mallory",
   none, none, none, none, none, none⟩

def c4State : OpState :=
  ⟨[c4Op], [⟨"cr1", "A1", .LINKED, none, none, none⟩], [], []⟩

/-- C4: contrary to the claim, a successful approval with a successful
synchronous provider submission leaves the operation in the terminal
EXECUTED status immediately — not in APPROVED awaiting the monitor.  At
this concrete input the checker `carol` (distinct from the maker) approves
a PENDING_CHECKER MINT operation, the provider submission succeeds with
task handle `task-1`, and the returned and stored operation status is
EXECUTED with the task handle recorded. -/
theorem approveOperation_marks_executed_on_submission :
    (approveOperation (.ok "task-1") c4State "op1" "carol").2 =
      .ok ⟨"op1", .MINT, "cr1", "p", .EXECUTED, "mallory",
           some "carol", none, none, some "task-1", none, none⟩ ∧
    ((approveOperation (.ok "task-1") c4State "op1" "carol").1.operations.map
      (fun o => o.status)) = [.EXECUTED] :=
  ⟨rfl, by decide⟩

/-! ## Claim C7: initiate-time precondition checks -/

def c7State : OpState :=
  ⟨[], [⟨"cr1", "A1", .MINTED, none, none, none⟩], [], []⟩

/-- C7: contrary to the claim, `initiateOperation` performs no
custody-status compatibility check: at this concrete input the custody
record is MINTED (not LINKED), yet a MINT operation is created in
PENDING_CHECKER instead of failing with a `PreconditionError`. -/
theorem initiateOperation_skips_status_check :
    (c7State.custody.map (fun c => c.status)) = [.MINTED] ∧
    (initiateOperation c7State "cr1" .MINT "p" "mallory" "op9").2 =
      .ok ⟨"op9", .MINT, "cr1", "p", .PENDING_CHECKER, "mallory",
           none, none, none, none, none, none⟩ ∧
    ((initiateOperation c7State "cr1" .MINT "p" "mallory" "op9").1.operations.map
      (fun o => o.status)) = [.PENDING_CHECKER] :=
  ⟨by decide, rfl, by decide⟩

/-! ## Claim C8: ordering of audit reads -/

/-- C8: contrary to the claim, `findByOperation` returns entries in
non-increasing (newest-first) timestamp order: at this concrete input two
entries with timestamps 1 and 2 come back as `[2, 1]`, which is not
chronological. -/
theorem findByOperation_returns_descending :
    findByOperation
        [⟨"OPERATION_CREATED", "m", none, some "op1", "", 1⟩,
         ⟨"OPERATION_APPROVED", "c", none, some "op1", "", 2⟩] "op1" 100 0 =
      [⟨"OPERATION_APPROVED", "c", none, some "op1", "", 2⟩,
       ⟨"OPERATION_CREATED", "m", none, some "op1", "", 1⟩] ∧
    ¬ chronological (findByOperation
        [⟨"OPERATION_CREATED", "m", none, some "op1", "", 1⟩,
         ⟨"OPERATION_APPROVED", "c", none, some "op1", "", 2⟩] "op1" 100 0) := by
  refine ⟨by decide, fun h => ?_⟩
  have h2 := h
  rw [show findByOperation
      [⟨"OPERATION_CREATED", "m", none, some "op1", "", 1⟩,
       ⟨"OPERATION_APPROVED", "c", none, some "op1", "", 2⟩] "op1" 100 0 =
      [⟨"OPERATION_APPROVED", "c", none, some "op1", "", 2⟩,
       ⟨"OPERATION_CREATED", "m", none, some "op1", "", 1⟩] from by decide] at h2
  simp [chronological, List.chain'_cons] at h2

/-! ## Claims C1/C2: the settlement transaction -/

/-- Decomposition of a passing precondition phase of `acceptBid`. -/
theorem acceptBidChecks_ok {s : MarketState} {bidId sellerId : String}
    {bid : Bid} {listing : Listing} {bb : UserBalance}
    (h : acceptBidChecks s bidId sellerId = .ok (bid, listing, bb)) :
    s.bids.find? (fun b => b.id == bidId) = some bid ∧
    s.listings.find? (fun l => l.id == bid.listingId) = some listing ∧
    listing.sellerId = sellerId ∧ bid.status = .PENDING ∧
    listing.status = .ACTIVE ∧
    s.balances.find? (fun r => r.userId == bid.buyerId) = some bb ∧
    ¬ (bb.balance < bid.amount) := by
  unfold acceptBidChecks at h
  split at h
  · exact absurd h (by simp)
  split at h
  · exact absurd h (by simp)
  split at h
  · exact absurd h (by simp)
  split at h
  · exact absurd h (by simp)
  split at h
  · exact absurd h (by simp)
  split at h
  · exact absurd h (by simp)
  split at h
  · exact absurd h (by simp)
  · simp only [Except.ok.injEq, Prod.mk.injEq] at h
    obtain ⟨rfl, rfl, rfl⟩ := h
    refine ⟨by assumption, by assumption, ?_, ?_, ?_, by assumption, by assumption⟩
    · simp_all
    · simp_all
    · simp_all

/-- C1 (amended): the five settlement effects are atomic — with a healthy
audit store, any failing `acceptBid` call leaves the state exactly as it
was — but the BID_ACCEPTED and OWNERSHIP_TRANSFERRED audit entries are
appended only after the transaction commits and are not part of the
atomic unit: on a run that would succeed, an audit-store failure still
returns the fully settled state (minus the audit entries) together with
the error. -/
theorem acceptBid_settlement_atomicity (s : MarketState)
    (bidId sellerId : String) :
    ((acceptBid true s bidId sellerId).2.isSome →
      (acceptBid true s bidId sellerId).1 = s) ∧
    ((acceptBid true s bidId sellerId).2 = none →
      acceptBid false s bidId sellerId =
        ({ (acceptBid true s bidId sellerId).1 with audit := s.audit },
          some .auditError) ∧
      ∃ e1 e2, (acceptBid true s bidId sellerId).1.audit = s.audit ++ [e1, e2] ∧
        e1.eventType = "BID_ACCEPTED" ∧
        e2.eventType = "OWNERSHIP_TRANSFERRED") := by
  cases hc : acceptBidChecks s bidId sellerId with
  | error e =>
    refine ⟨fun _ => by simp [acceptBid, hc], fun h => ?_⟩
    simp [acceptBid, hc] at h
  | ok t =>
    obtain ⟨bid, listing, bb⟩ := t
    cases htx : acceptBidTx s bid listing bb.balance sellerId with
    | error e =>
      refine ⟨fun _ => by simp [acceptBid, hc, htx], fun h => ?_⟩
      simp [acceptBid, hc, htx] at h
    | ok s1 =>
      refine ⟨fun h => ?_, fun _ => ?_⟩
      · simp [acceptBid, hc, htx] at h
      · obtain ⟨own1, own2, bal1, bal2, ls, bs, _, _, _, _, _, _, hs1⟩ :=
          acceptBidTx_ok htx
        subst hs1
        refine ⟨by simp [acceptBid, hc, htx, appendAudit], ?_⟩
        refine ⟨⟨"BID_ACCEPTED", sellerId, some listing.custodyRecordId,
                 none, bid.id, s.audit.length⟩,
                ⟨"OWNERSHIP_TRANSFERRED", "SYSTEM", some listing.custodyRecordId,
                 none, listing.assetId, s.audit.length + 1⟩, ?_, rfl, rfl⟩
        simp [acceptBid, hc, htx, appendAudit]

def c1State : MarketState :=
  ⟨[⟨"L1", "A1", "CR1", "alice", 100, "USD", .ACTIVE⟩],
   [⟨"B1", "L1", "bob", 100, .PENDING⟩],
   [⟨"A1", "CR1", "alice", 1⟩],
   [⟨"bob", 500, "USD"⟩, ⟨"alice", 50, "USD"⟩], []⟩

/-- C1: contrary to the claim, the audit entries are not applied
atomically with the five settlement effects: at this concrete input the
audit store fails after the transaction commits, the call reports an
error, and yet the listing is SOLD, the bid ACCEPTED, the ownership
moved to the buyer and the balances settled, with no audit entry
written. -/
theorem acceptBid_effects_survive_audit_failure :
    (acceptBid false c1State "B1" "alice").2 = some .auditError ∧
    ((acceptBid false c1State "B1" "alice").1.listings.map (fun l => l.status))
      = [.SOLD] ∧
    ((acceptBid false c1State "B1" "alice").1.bids.map (fun b => b.status))
      = [.ACCEPTED] ∧
    ((acceptBid false c1State "B1" "alice").1.ownerships.map
      (fun o => (o.ownerId, o.quantity))) = [("bob", 1)] ∧
    ((acceptBid false c1State "B1" "alice").1.balances.map
      (fun r => (r.userId, r.balance))) = [("bob", 400), ("alice", 150)] ∧
    (acceptBid false c1State "B1" "alice").1.audit = [] := by
  refine ⟨by decide, by decide, by decide, by decide, by decide, by decide⟩

/-- Witness for the amended C1 at a concrete state: the run succeeds with
a healthy audit store, and with a failing one it returns the settled
state together with the audit error. -/
theorem acceptBid_settlement_atomicity_witness :
    (acceptBid true c1State "B1" "alice").2 = none ∧
    acceptBid false c1State "B1" "alice" =
      ({ (acceptBid true c1State "B1" "alice").1 with audit := c1State.audit },
        some .auditError) :=
  ⟨by decide,
   ((acceptBid_settlement_atomicity c1State "B1" "alice").2 (by decide)).1⟩

/-- C2 (amended): on every succeeding `acceptBid`, the total currency
balance across all users is conserved (the buyer's debit equals the
seller's credit) — unconditionally; the total ownership quantity of the
asset is conserved provided the seller's ownership row holds quantity 1 —
the transaction deletes the seller's row whatever its quantity and grants
the buyer a fixed quantity of 1.  Key uniqueness of the balance and
ownership stores (their database unique constraints) is assumed. -/
theorem acceptBid_conservation (s : MarketState) (bidId sellerId : String)
    (bid : Bid) (listing : Listing)
    (hnb : (s.balances.map (fun r => r.userId)).Nodup)
    (hno : (s.ownerships.map (fun o => (o.assetId, o.ownerId))).Nodup)
    (hbid : s.bids.find? (fun b => b.id == bidId) = some bid)
    (hlst : s.listings.find? (fun l => l.id == bid.listingId) = some listing)
    (hsucc : (acceptBid true s bidId sellerId).2 = none) :
    totalBalance (acceptBid true s bidId sellerId).1.balances
      = totalBalance s.balances ∧
    (∀ orow, s.ownerships.find? (ownKey listing.assetId sellerId) = some orow →
      orow.quantity = 1 →
      assetTotal (acceptBid true s bidId sellerId).1.ownerships listing.assetId
        = assetTotal s.ownerships listing.assetId) := by
  cases hc : acceptBidChecks s bidId sellerId with
  | error e => simp [acceptBid, hc] at hsucc
  | ok t =>
    obtain ⟨bid', listing', bb⟩ := t
    obtain ⟨hbid', hlst', hsell', hpend', hact', hbb', hfunds'⟩ :=
      acceptBidChecks_ok hc
    rw [hbid] at hbid'
    injection hbid' with hbid'
    subst hbid'
    rw [hlst] at hlst'
    injection hlst' with hlst'
    subst hlst'
    cases htx : acceptBidTx s bid listing bb.balance sellerId with
    | error e => simp [acceptBid, hc, htx] at hsucc
    | ok s1 =>
      obtain ⟨own1, own2, bal1, bal2, ls, bs, hdel, hcre, hbu, hsel, hlu,
        hbidu, hs1⟩ := acceptBidTx_ok htx
      subst hs1
      have hbal : (acceptBid true s bidId sellerId).1.balances = bal2 := by
        simp [acceptBid, hc, htx, appendAudit]
      have hown : (acceptBid true s bidId sellerId).1.ownerships = own2 := by
        simp [acceptBid, hc, htx, appendAudit]
      rw [hbal, hown]
      constructor
      · obtain ⟨r0, hr0, hbal1⟩ := balanceUpdate_ok hbu
        rw [hbb'] at hr0
        injection hr0 with hr0
        subst hr0
        have h1 : totalBalance bal1
            = totalBalance s.balances - bb.balance + (bb.balance - bid.amount) := by
          rw [hbal1]
          exact totalBalance_map_update hnb hbb'
        have hnb1 : (bal1.map (fun r => r.userId)).Nodup := by
          rw [hbal1, balanceUpdate_map_userId]
          exact hnb
        cases hfs : bal1.find? (fun r => r.userId == sellerId) with
        | some sb =>
          rw [hfs] at hsel
          obtain ⟨r1, hr1, hbal2⟩ := balanceUpdate_ok hsel
          rw [hfs] at hr1
          injection hr1 with hr1
          subst hr1
          have h2 : totalBalance bal2
              = totalBalance bal1 - sb.balance + (sb.balance + bid.amount) := by
            rw [hbal2]
            exact totalBalance_map_update hnb1 hfs
          rw [h2, h1]
          ring
        | none =>
          rw [hfs] at hsel
          obtain ⟨-, hbal2⟩ := balanceCreate_ok hsel
          rw [hbal2, totalBalance_append, h1]
          show totalBalance s.balances - bb.balance + (bb.balance - bid.amount)
            + bid.amount = totalBalance s.balances
          ring
      · intro orow hrow hq1
        obtain ⟨o, ho, hown1⟩ := ownershipDelete_ok hdel
        rw [hrow] at ho
        injection ho with ho
        subst ho
        obtain ⟨-, hown2⟩ := ownershipCreate_ok hcre
        rw [hown2, assetTotal_append, hown1,
          assetTotal_filter_delete hno hrow, hq1]
        show assetTotal s.ownerships listing.assetId - 1
          + (if (listing.assetId == listing.assetId) then (1 : ℤ) else 0)
          = assetTotal s.ownerships listing.assetId
        simp

def c2BadState : MarketState :=
  ⟨[⟨"L1", "A1", "CR1", "alice", 100, "USD", .ACTIVE⟩],
   [⟨"B1", "L1", "bob", 100, .PENDING⟩],
   [⟨"A1", "CR1", "alice", 2⟩],
   [⟨"bob", 500, "USD"⟩, ⟨"alice", 50, "USD"⟩], []⟩

/-- C2: contrary to the claim, a succeeding `acceptBid` does not conserve
the total ownership quantity of the asset when the seller's row holds
more than quantity 1: at this concrete input the seller owns quantity 2,
the settlement succeeds, and the asset total drops from 2 to 1 (the
buyer receives the hard-coded quantity 1). -/
theorem acceptBid_drops_ownership_quantity :
    (acceptBid true c2BadState "B1" "alice").2 = none ∧
    assetTotal c2BadState.ownerships "A1" = 2 ∧
    assetTotal (acceptBid true c2BadState "B1" "alice").1.ownerships "A1" = 1 := by
  refine ⟨by decide, by decide, by decide⟩

def c2GoodState : MarketState :=
  ⟨[⟨"L1", "A1", "CR1", "alice", 100, "USD", .ACTIVE⟩],
   [⟨"B1", "L1", "bob", 100, .PENDING⟩],
   [⟨"A1", "CR1", "alice", 1⟩],
   [⟨"bob", 500, "USD"⟩, ⟨"alice", 50, "USD"⟩], []⟩

/-- Witness for the amended C2 at a concrete conserving state (seller
quantity 1): both the unconditional balance conservation and the
quantity-1 ownership conservation, read off the theorem. -/
theorem acceptBid_conservation_witness :
    totalBalance (acceptBid true c2GoodState "B1" "alice").1.balances
      = totalBalance c2GoodState.balances ∧
    assetTotal (acceptBid true c2GoodState "B1" "alice").1.ownerships "A1"
      = assetTotal c2GoodState.ownerships "A1" :=
  ⟨(acceptBid_conservation c2GoodState "B1" "alice"
      ⟨"B1", "L1", "bob", 100, .PENDING⟩
      ⟨"L1", "A1", "CR1", "alice", 100, "USD", .ACTIVE⟩
      (by decide) (by decide) (by decide) (by decide) (by decide)).1,
   (acceptBid_conservation c2GoodState "B1" "alice"
      ⟨"B1", "L1", "bob", 100, .PENDING⟩
      ⟨"L1", "A1", "CR1", "alice", 100, "USD", .ACTIVE⟩
      (by decide) (by decide) (by decide) (by decide) (by decide)).2
     ⟨"A1", "CR1", "alice", 1⟩ (by decide) (by decide)⟩

/-! ## Claim C9: bids of non-ACTIVE listings -/

def c9Listing : Listing := ⟨"L1", "A1", "CR1", "alice", 100, "USD", .SOLD⟩

def c9Bid : Bid := ⟨"B1", "L1", "bob", 100, .PENDING⟩

def c9State : MarketState :=
  ⟨[c9Listing], [c9Bid], [⟨"A1", "CR1", "alice", 1⟩], [⟨"bob", 500, "USD"⟩], []⟩

/-- C9: contrary to the claim, at this concrete state the listing is SOLD
(non-ACTIVE) and its PENDING bid is nevertheless moved to REJECTED by
`rejectBid` — an operation other than the settlement path moves the bid
out of PENDING. -/
theorem rejectBid_moves_pending_bid_of_sold_listing :
    c9Listing.status = .SOLD ∧ c9Bid.status = .PENDING ∧
    (rejectBid c9State "B1" "alice").2 = none ∧
    ((rejectBid c9State "B1" "alice").1.bids.map (fun b => b.status))
      = [.REJECTED] := by
  refine ⟨by decide, by decide, by decide, by decide⟩

/-- C9 (amended): `rejectBid` checks only listing ownership and the bid's
own status; whenever the requester owns the listing and the bid is
PENDING, the bid is moved to REJECTED even though the listing is
non-ACTIVE. -/
theorem rejectBid_ignores_listing_status (s : MarketState)
    (bidId sellerId : String) (bid : Bid) (listing : Listing)
    (hbid : s.bids.find? (fun b => b.id == bidId) = some bid)
    (hlst : s.listings.find? (fun l => l.id == bid.listingId) = some listing)
    (hsell : listing.sellerId = sellerId) (hpend : bid.status = .PENDING)
    (hnact : listing.status ≠ .ACTIVE) :
    (rejectBid s bidId sellerId).2 = none ∧
    (((rejectBid s bidId sellerId).1.bids.find? (fun b => b.id == bidId)).map
      (fun b => b.status)) = some .REJECTED := by
  have hpb : (bid.id == bidId) = true := by
    simpa using List.find?_some hbid
  have hupd : bidUpdate s.bids bidId .REJECTED =
      .ok (s.bids.map (fun y => if y.id == bidId then { y with status := .REJECTED } else y)) := by
    unfold bidUpdate
    rw [hbid]
  have hfind := find?_map_update (fun b : Bid => b.id == bidId)
    (fun y => if y.id == bidId then { y with status := .REJECTED } else y)
    (fun x hx => by simp at hx; simp [hx])
    (fun x hx => by simp [hx])
    s.bids bid hbid
  simp only [hpb, if_true] at hfind
  simp only [rejectBid, hbid, hlst, hsell, hpend, ne_eq, not_true_eq_false,
    if_false, hupd, appendAudit]
  refine ⟨by trivial, ?_⟩
  rw [hfind]
  rfl

/-- Witness for the amended C9 at a concrete state with a SOLD listing. -/
theorem rejectBid_ignores_listing_status_witness :
    (rejectBid c9State "B1" "alice").2 = none ∧
    (((rejectBid c9State "B1" "alice").1.bids.find? (fun b => b.id == "B1")).map
      (fun b => b.status)) = some .REJECTED :=
  rejectBid_ignores_listing_status c9State "B1" "alice" c9Bid c9Listing
    (by decide) (by decide) (by decide) (by decide) (by decide)

/-! ## Claim C10: rollback when the seller has no ownership row -/

/-- C10: when every explicit precondition check passes but the seller has
no ownership row for the listing's asset, the transaction's ownership
delete fails and the whole settlement rolls back: the call errors and
returns the state completely unchanged (listing still ACTIVE, bid still
PENDING, balances and ownership untouched). -/
theorem acceptBid_rollback_on_missing_seller_ownership (auditOk : Bool)
    (s : MarketState) (bidId sellerId : String) (bid : Bid) (listing : Listing)
    (bb : UserBalance)
    (hbid : s.bids.find? (fun b => b.id == bidId) = some bid)
    (hlst : s.listings.find? (fun l => l.id == bid.listingId) = some listing)
    (hsell : listing.sellerId = sellerId) (hpend : bid.status = .PENDING)
    (hact : listing.status = .ACTIVE)
    (hbb : s.balances.find? (fun r => r.userId == bid.buyerId) = some bb)
    (hfunds : ¬ (bb.balance < bid.amount))
    (hnoown : s.ownerships.find? (ownKey listing.assetId sellerId) = none) :
    acceptBid auditOk s bidId sellerId = (s, some .txError) := by
  have htx : acceptBidTx s bid listing bb.balance sellerId = .error .txError := by
    unfold acceptBidTx ownershipDelete
    rw [hnoown]
  have hchecks : acceptBidChecks s bidId sellerId = .ok (bid, listing, bb) := by
    simp only [acceptBidChecks, hbid, hlst, hsell, hpend, hact, hbb, hfunds,
      ne_eq, not_true_eq_false, if_false]
  simp only [acceptBid, hchecks, htx]

def c10State : MarketState :=
  ⟨[⟨"L1", "A1", "CR1", "alice", 100, "USD", .ACTIVE⟩],
   [⟨"B1", "L1", "bob", 100, .PENDING⟩], [],
   [⟨"bob", 500, "USD"⟩], []⟩

/-- Witness for C10 at a concrete state whose preconditions all pass but
whose seller owns no row for the asset. -/
theorem acceptBid_rollback_on_missing_seller_ownership_witness :
    acceptBid true c10State "B1" "alice" = (c10State, some .txError) :=
  acceptBid_rollback_on_missing_seller_ownership true c10State "B1" "alice"
    ⟨"B1", "L1", "bob", 100, .PENDING⟩
    ⟨"L1", "A1", "CR1", "alice", 100, "USD", .ACTIVE⟩
    ⟨"bob", 500, "USD"⟩
    (by decide) (by decide) (by decide) (by decide) (by decide) (by decide)
    (by decide) (by decide)

/-! ## Claims C5/C6: the execution monitor -/

theorem appendOpAudit_operations (s : OpState) (ev ac : String)
    (cr oi : Option String) (md : String) :
    (appendOpAudit s ev ac cr oi md).operations = s.operations := rfl

theorem milestoneAudit_operations (opId taskId : String) (attempts : Nat)
    (s : OpState) :
    (milestoneAudit opId taskId attempts s).operations = s.operations := by
  unfold milestoneAudit
  split <;> split <;> split <;> rfl

theorem appendOpAudit_audit_mem {s : OpState} {ev ac : String}
    {cr oi : Option String} {md : String} {e : AuditEntry}
    (he : e ∈ (appendOpAudit s ev ac cr oi md).audit) :
    e ∈ s.audit ∨ e.eventType = ev := by
  simp only [appendOpAudit, List.mem_append, List.mem_singleton] at he
  rcases he with h | rfl
  · exact Or.inl h
  · exact Or.inr rfl

theorem milestoneAudit_audit_mem (opId taskId : String) (attempts : Nat)
    (s : OpState) (e : AuditEntry)
    (he : e ∈ (milestoneAudit opId taskId attempts s).audit) :
    e ∈ s.audit ∨ e.eventType = "ON_CHAIN_SUBMISSION" ∨
    e.eventType = "BLOCK_PROPAGATION" ∨
    e.eventType = "FINALIZING_SETTLEMENT" := by
  have step : ∀ (t : OpState) (c : Bool) (ev : String),
      e ∈ (if c then appendOpAudit t ev "system" none (some opId) taskId
           else t).audit →
      e ∈ t.audit ∨ e.eventType = ev := by
    intro t c ev hmem
    cases c with
    | false => exact Or.inl hmem
    | true => exact appendOpAudit_audit_mem hmem
  dsimp only [milestoneAudit] at he
  rcases step _ _ _ he with he2 | h
  · rcases step _ _ _ he2 with he3 | h
    · rcases step _ _ _ he3 with he4 | h
      · exact Or.inl he4
      · exact Or.inr (Or.inl h)
    · exact Or.inr (Or.inr (Or.inl h))
  · exact Or.inr (Or.inr (Or.inr h))

/-- One poll against a non-terminal provider status: the loop either
reschedules or (once the budget is exhausted) just stops; in both cases
only the milestone audit entries are written. -/
theorem pollOnce_nonterminal (responses : Nat → Except String PollData)
    (ty : OperationType) (opId taskId : String) (attempts : Nat) (s : OpState)
    (r : PollData) (hr : responses attempts = .ok r)
    (h1 : r.status ≠ "COMPLETED") (h2 : r.status ≠ "FAILED")
    (h3 : r.status ≠ "REJECTED") (h4 : r.status ≠ "CANCELLED") :
    pollOnce responses ty opId taskId attempts s =
      if attempts < maxAttempts then
        .again (milestoneAudit opId taskId attempts s)
      else .stop (milestoneAudit opId taskId attempts s) := by
  unfold pollOnce
  rw [hr]
  have hC : (r.status == "COMPLETED") = false := by simp [h1]
  have hF : (r.status == "FAILED") = false := by simp [h2]
  have hR : (r.status == "REJECTED") = false := by simp [h3]
  have hX : (r.status == "CANCELLED") = false := by simp [h4]
  simp only [hC, hF, hR, hX, Bool.false_eq_true, if_false, Bool.or_self,
    Bool.or_false]

/-- The monitor loop under uniformly non-terminal provider responses:
whatever the fuel and starting attempt, the operations store is untouched
and the only audit entries written are the milestone progress entries. -/
theorem monitorPoll_nonterminal (responses : Nat → Except String PollData)
    (ty : OperationType) (opId taskId : String)
    (h : ∀ n, ∃ r, responses n = .ok r ∧ r.status ≠ "COMPLETED" ∧
      r.status ≠ "FAILED" ∧ r.status ≠ "REJECTED" ∧ r.status ≠ "CANCELLED") :
    ∀ (fuel attempts : Nat) (s : OpState),
      (monitorPoll responses ty opId taskId attempts fuel s).operations
        = s.operations ∧
      ∀ e ∈ (monitorPoll responses ty opId taskId attempts fuel s).audit,
        e ∈ s.audit ∨ e.eventType = "ON_CHAIN_SUBMISSION" ∨
        e.eventType = "BLOCK_PROPAGATION" ∨
        e.eventType = "FINALIZING_SETTLEMENT" := by
  intro fuel
  induction fuel with
  | zero => exact fun attempts s => ⟨rfl, fun e he => Or.inl he⟩
  | succ fuel ih =>
    intro attempts s
    obtain ⟨r, hr, h1, h2, h3, h4⟩ := h attempts
    rw [show monitorPoll responses ty opId taskId attempts (fuel + 1) s =
        (match pollOnce responses ty opId taskId attempts s with
         | .stop s' => s'
         | .again s' =>
             monitorPoll responses ty opId taskId (attempts + 1) fuel s')
      from rfl]
    rw [pollOnce_nonterminal responses ty opId taskId attempts s r hr h1 h2 h3 h4]
    by_cases hlt : attempts < maxAttempts
    · rw [if_pos hlt]
      obtain ⟨ihops, ihaud⟩ := ih (attempts + 1) (milestoneAudit opId taskId attempts s)
      refine ⟨by rw [ihops, milestoneAudit_operations], fun e he => ?_⟩
      rcases ihaud e he with hin | htype
      · exact milestoneAudit_audit_mem opId taskId attempts s e hin
      · exact Or.inr htype
    · rw [if_neg hlt]
      exact ⟨milestoneAudit_operations opId taskId attempts s,
        fun e he => milestoneAudit_audit_mem opId taskId attempts s e he⟩

/-- C5 (amended): when the attempt budget is exhausted without a terminal
provider status, the monitor simply stops: no operation status is changed
(in particular nothing is marked FAILED) and no OPERATION_FAILED audit
entry is appended — only milestone progress entries are written. -/
theorem monitorExecution_timeout_no_failed_mark
    (responses : Nat → Except String PollData) (ty : OperationType)
    (opId taskId : String) (s : OpState)
    (h : ∀ n, ∃ r, responses n = .ok r ∧ r.status ≠ "COMPLETED" ∧
      r.status ≠ "FAILED" ∧ r.status ≠ "REJECTED" ∧ r.status ≠ "CANCELLED") :
    (monitorExecution responses ty opId taskId s).operations = s.operations ∧
    ∀ e ∈ (monitorExecution responses ty opId taskId s).audit,
      e ∈ s.audit ∨ e.eventType = "ON_CHAIN_SUBMISSION" ∨
      e.eventType = "BLOCK_PROPAGATION" ∨
      e.eventType = "FINALIZING_SETTLEMENT" :=
  monitorPoll_nonterminal responses ty opId taskId h (maxAttempts + 2) 0 s

def c5Op : Operation :=
  ⟨"op1", .MINT, "cr1", "p", .EXECUTED, "mallory", some "carol",
   none, none, some "task-1", none, none⟩

def c5State : OpState :=
  ⟨[c5Op], [⟨"cr1", "A1", .LINKED, none, none, none⟩], [], []⟩

def c5Responses : Nat → Except String PollData :=
  fun _ => .ok ⟨"PENDING", none, none⟩

/-- C5: contrary to the claim, exhausting the 30-attempt budget does not
mark the operation FAILED and appends no OPERATION_FAILED entry: at this
concrete input the provider always answers PENDING, and after the budget
runs out the operation still has its pre-monitoring status and the audit
log holds exactly the three milestone entries. -/
theorem monitorExecution_timeout_leaves_operation :
    ((findOp (monitorExecution c5Responses .MINT "op1" "task-1" c5State)
      "op1").map (fun o => o.status)) = some .EXECUTED ∧
    ((monitorExecution c5Responses .MINT "op1" "task-1" c5State).audit.map
      (fun e => e.eventType)) =
      ["ON_CHAIN_SUBMISSION", "BLOCK_PROPAGATION", "FINALIZING_SETTLEMENT"] := by
  refine ⟨by decide, by decide⟩

/-- Witness for the amended C5 at the concrete always-PENDING input. -/
theorem monitorExecution_timeout_no_failed_mark_witness :
    (monitorExecution c5Responses .MINT "op1" "task-1" c5State).operations
      = c5State.operations ∧
    ∀ e ∈ (monitorExecution c5Responses .MINT "op1" "task-1" c5State).audit,
      e ∈ c5State.audit ∨ e.eventType = "ON_CHAIN_SUBMISSION" ∨
      e.eventType = "BLOCK_PROPAGATION" ∨
      e.eventType = "FINALIZING_SETTLEMENT" :=
  monitorExecution_timeout_no_failed_mark c5Responses .MINT "op1" "task-1"
    c5State
    (fun _ => ⟨⟨"PENDING", none, none⟩, rfl, by decide, by decide, by decide,
      by decide⟩)

theorem opUpdateStatus_of_find {l : List Operation} {opId : String}
    {op : Operation} (hfind : l.find? (fun o => o.id == opId) = some op)
    (st : OperationStatus) (p : OpPatch) :
    opUpdateStatus l opId st p =
      .ok (l.map (fun x => if x.id == opId then applyPatch op st p else x),
           applyPatch op st p) := by
  unfold opUpdateStatus
  rw [hfind]

def c6Op : Operation :=
  ⟨"op1", .MINT, "cr1", "p", .EXECUTED, "mallory", some "carol",
   none, none, some "task-1", none, none⟩

def c6State : OpState :=
  ⟨[c6Op], [⟨"cr1", "A1", .LINKED, none, none, none⟩], [], []⟩

/-- C6: contrary to the claim, the monitor's status write is a blind
overwrite, not a check-and-set: at this concrete input the operation is
already in the terminal status EXECUTED, a (stale) FAILED provider
response is processed, and the operation regresses to FAILED. -/
theorem monitorExecution_overwrites_terminal_status :
    ((findOp c6State "op1").map (fun o => o.status)) = some .EXECUTED ∧
    ((findOp (monitorExecution (fun _ => .ok ⟨"FAILED", none, none⟩) .MINT
      "op1" "task-1" c6State) "op1").map (fun o => o.status)) = some .FAILED := by
  refine ⟨by decide, by decide⟩

/-- C6 (amended): the monitor stops polling once it processes a terminal
provider response, but the status update it performs checks nothing: a
FAILED provider response processed while the operation is already in the
terminal EXECUTED status unconditionally overwrites that status with
FAILED (and appends OPERATION_FAILED). -/
theorem monitorExecution_blind_overwrite
    (responses : Nat → Except String PollData) (ty : OperationType)
    (s : OpState) (opId taskId : String) (op : Operation) (r : PollData)
    (hfind : findOp s opId = some op) (hterm : op.status = .EXECUTED)
    (hresp : responses 0 = .ok r) (hst : r.status = "FAILED") :
    ((findOp (monitorExecution responses ty opId taskId s) opId).map
      (fun o => o.status)) = some .FAILED := by
  have hfind' : s.operations.find? (fun o => o.id == opId) = some op := hfind
  have hpb : (op.id == opId) = true := by simpa using List.find?_some hfind'
  unfold monitorExecution
  rw [show maxAttempts + 2 = (maxAttempts + 1) + 1 from rfl]
  rw [show monitorPoll responses ty opId taskId 0 ((maxAttempts + 1) + 1) s =
      (match pollOnce responses ty opId taskId 0 s with
       | .stop s' => s'
       | .again s' => monitorPoll responses ty opId taskId 1 (maxAttempts + 1) s')
    from rfl]
  unfold pollOnce
  rw [hresp]
  dsimp only
  rw [hst]
  simp only [show milestoneAudit opId taskId 0 s = s from rfl,
    show (("FAILED" == "COMPLETED")) = false from rfl,
    show (("FAILED" == "FAILED")) = true from rfl, Bool.false_eq_true,
    if_false, Bool.true_or, if_true]
  rw [show (appendOpAudit s "OPERATION_FAILED" "system" none (some opId)
    ("Fireblocks status: " ++ "FAILED")).operations = s.operations from rfl]
  rw [opUpdateStatus_of_find hfind']
  have hfound := find?_map_update (fun o : Operation => o.id == opId)
    (fun x => if x.id == opId then
      applyPatch op .FAILED
        { OpPatch.empty with
          failureReason := some ("Fireblocks status: " ++ "FAILED") } else x)
    (fun x hx => by simp only [hx, if_true]; exact hpb)
    (fun x hx => by simp [hx])
    s.operations op hfind'
  simp only [hpb, if_true] at hfound
  dsimp only
  unfold findOp
  dsimp only [appendOpAudit]
  rw [hfound]
  rfl

/-- Witness for the amended C6 at the concrete stale-FAILED input. -/
theorem monitorExecution_blind_overwrite_witness :
    ((findOp (monitorExecution (fun _ => .ok ⟨"FAILED", none, none⟩) .TRANSFER
      "op1" "task-1" c6State) "op1").map (fun o => o.status)) = some .FAILED :=
  monitorExecution_blind_overwrite (fun _ => .ok ⟨"FAILED", none, none⟩)
    .TRANSFER c6State "op1" "task-1" c6Op ⟨"FAILED", none, none⟩
    (by decide) (by decide) rfl rfl

end AssetLink
